import Mathlib

/-!
Verification of the Kalshi trading bot core against its specification.

The definitions below are a shallow embedding of the Python sources
src/kalshi-bot/trading_bot_CORRECTED.py and src/kalshi-bot/kalshi_api.py.
Money amounts in cents are modelled as integers; quantities computed with
Python float division, such as average prices and Kelly fractions, are
modelled as rationals; a Python ZeroDivisionError is modelled by Option,
with none standing for the raised exception.  External effects (HTTP
calls, wall clock) are passed in explicitly: an environment record of
oracle responses stands for the exchange, and date and time parameters
stand for datetime.now.  Calls to the exchange client and to the
bookkeeping objects are recorded as an event trace, so that theorems can
speak about which calls a code path performs.
-/

namespace KalshiBot

/-! Configuration constants from trading_bot_CORRECTED.py. -/

def KALSHI_FEE_PER_CONTRACT : ℤ := 2

def MIN_PROFIT_CENTS : ℤ := 1

def RISK_PER_TRADE_PCT : ℚ := 1 / 100

def MAX_POSITION_CONTRACTS : ℤ := 100

def MIN_POSITION_CONTRACTS : ℤ := 1

def DAILY_LOSS_LIMIT_CENTS : ℤ := 5000

def MAX_DRAWDOWN_PCT : ℚ := 1 / 10

def MAX_POSITION_VALUE_CENTS : ℤ := 10000

def MAX_EXPOSURE_CENTS : ℚ := 5000

def ORDERS_PER_MINUTE : ℕ := 10

def USE_KELLY_SIZING : Bool := true

/-- Side of a binary market contract, the Python strings yes and no. -/
inductive Side
  | yes
  | no
deriving DecidableEq, Repr

/-- Opposite side, used for the hedge leg. -/
def Side.opposite : Side → Side
  | .yes => .no
  | .no => .yes

/-- Market snapshot as consumed by calculate_spread and
place_market_making_orders: an identifier and the four quotes, in cents.
Identifiers are modelled as natural numbers. -/
structure Market where
  id : ℕ
  yes_bid : ℤ
  yes_ask : ℤ
  no_bid : ℤ
  no_ask : ℤ
deriving DecidableEq, Repr

/-- Opportunity record returned by calculate_spread.  The profit_pct
field is a Python float and is modelled as a rational. -/
structure Opportunity where
  type : Side
  buy_price : ℤ
  sell_price : ℤ
  spread : ℤ
  fees : ℤ
  net_profit : ℤ
  profit_pct : ℚ
deriving DecidableEq, Repr

/-- Embedding of TradingBot.calculate_spread from
trading_bot_CORRECTED.py lines 305 to 356.  Python truthiness of the
integer quotes is modelled as being nonzero.  The yes side is examined
first; the no side is examined only when the yes side does not produce
an opportunity. -/
def calculate_spread (m : Market) : Option Opportunity :=
  let min_spread := KALSHI_FEE_PER_CONTRACT * 2 + MIN_PROFIT_CENTS
  let yesOpp : Option Opportunity :=
    if m.yes_bid ≠ 0 ∧ m.yes_ask ≠ 0 then
      let spread := m.yes_ask - m.yes_bid
      if min_spread ≤ spread then
        let fees := KALSHI_FEE_PER_CONTRACT * 2
        let net_profit := spread - fees
        some ⟨Side.yes, m.yes_bid, m.yes_ask, spread, fees, net_profit,
          if 0 < m.yes_bid then (net_profit : ℚ) / (m.yes_bid : ℚ) * 100 else 0⟩
      else none
    else none
  match yesOpp with
  | some o => some o
  | none =>
    if m.no_bid ≠ 0 ∧ m.no_ask ≠ 0 then
      let spread := m.no_ask - m.no_bid
      if min_spread ≤ spread then
        let fees := KALSHI_FEE_PER_CONTRACT * 2
        let net_profit := spread - fees
        some ⟨Side.no, m.no_bid, m.no_ask, spread, fees, net_profit,
          if 0 < m.no_bid then (net_profit : ℚ) / (m.no_bid : ℚ) * 100 else 0⟩
      else none
    else none

/-- Rejection reason produced by CircuitBreaker.check_trade_allowed.
Each constructor stands for one of the distinct human readable message
strings of the Python code. -/
inductive CBReason
  | ok
  | dailyLossLimitExceeded
  | maxDrawdownExceeded
  | positionTooLarge
  | rateLimited
deriving DecidableEq, Repr

/-- State of the CircuitBreaker object of trading_bot_CORRECTED.py lines
43 to 103.  Dates are modelled as integer day numbers and timestamps as
rationals standing for time.time values. -/
structure CircuitBreaker where
  daily_loss_limit : ℤ
  max_drawdown_pct : ℚ
  max_position_value : ℤ
  orders_per_minute_limit : ℕ
  start_balance : ℤ
  peak_balance : ℤ
  daily_pnl : ℤ
  order_timestamps : List ℚ
  last_reset_date : ℤ
deriving DecidableEq, Repr

/-- The freshly constructed CircuitBreaker, with the given construction
date standing for datetime.now().date(). -/
def CircuitBreaker.init (today : ℤ) : CircuitBreaker :=
  ⟨DAILY_LOSS_LIMIT_CENTS, MAX_DRAWDOWN_PCT, MAX_POSITION_VALUE_CENTS,
    ORDERS_PER_MINUTE, 0, 0, 0, [], today⟩

/-- Embedding of CircuitBreaker.reset_if_new_day; the current date is an
explicit parameter. -/
def CircuitBreaker.reset_if_new_day (cb : CircuitBreaker) (today : ℤ) :
    CircuitBreaker × Bool :=
  if today ≠ cb.last_reset_date then
    ({ cb with daily_pnl := 0, order_timestamps := [], last_reset_date := today },
      true)
  else (cb, false)

/-- Embedding of CircuitBreaker.check_trade_allowed, lines 67 to 95.
Returns the updated state together with the allowed flag and the reason.
The checks run in source order and the first failing check
short-circuits the rest. -/
def CircuitBreaker.check_trade_allowed (cb : CircuitBreaker) (today : ℤ)
    (now : ℚ) (current_balance position_value : ℤ) :
    CircuitBreaker × Bool × CBReason :=
  let cb1 := (cb.reset_if_new_day today).1
  let cb2 :=
    if cb1.peak_balance < current_balance then
      { cb1 with peak_balance := current_balance }
    else cb1
  if cb2.daily_pnl < -cb2.daily_loss_limit then
    (cb2, false, CBReason.dailyLossLimitExceeded)
  else if 0 < cb2.peak_balance ∧
      cb2.max_drawdown_pct <
        ((cb2.peak_balance : ℚ) - (current_balance : ℚ)) / (cb2.peak_balance : ℚ) then
    (cb2, false, CBReason.maxDrawdownExceeded)
  else if cb2.max_position_value < position_value then
    (cb2, false, CBReason.positionTooLarge)
  else if cb2.orders_per_minute_limit ≤
      (cb2.order_timestamps.filter (fun t => now - t < 60)).length then
    (cb2, false, CBReason.rateLimited)
  else (cb2, true, CBReason.ok)

/-- Embedding of CircuitBreaker.record_order; the appended timestamp is
the explicit now parameter. -/
def CircuitBreaker.record_order (cb : CircuitBreaker) (now : ℚ) :
    CircuitBreaker :=
  { cb with order_timestamps := cb.order_timestamps ++ [now] }

/-- Embedding of CircuitBreaker.record_pnl. -/
def CircuitBreaker.record_pnl (cb : CircuitBreaker) (pnl_cents : ℤ) :
    CircuitBreaker :=
  { cb with daily_pnl := cb.daily_pnl + pnl_cents }

/-- Runs a sequence of check_trade_allowed calls, threading the state,
and collects the allowed flag and reason of each call.  Each list entry
carries the date, the clock value, the current balance and the position
value of one call. -/
def CircuitBreaker.runChecks (cb : CircuitBreaker) :
    List (ℤ × ℚ × ℤ × ℤ) → List (Bool × CBReason) × CircuitBreaker
  | [] => ([], cb)
  | c :: rest =>
    let r := cb.check_trade_allowed c.1 c.2.1 c.2.2.1 c.2.2.2
    let rec' := r.1.runChecks rest
    (r.2 :: rec'.1, rec'.2)

/-- Reason enumeration for InventoryManager.can_add_position. -/
inductive InvReason
  | ok
  | wouldExceedMaxExposure
deriving DecidableEq, Repr

/-- State of the InventoryManager object, trading_bot_CORRECTED.py lines
107 to 164.  Contract counts are integers; the average prices become
Python floats after the first weighted average update and are modelled
as rationals. -/
structure Inventory where
  max_exposure : ℚ
  yes_contracts : ℤ
  no_contracts : ℤ
  avg_yes_price : ℚ
  avg_no_price : ℚ
deriving DecidableEq, Repr

/-- The freshly constructed InventoryManager with the default cap. -/
def Inventory.init : Inventory :=
  ⟨MAX_EXPOSURE_CENTS, 0, 0, 50, 50⟩

/-- Exposure report returned by InventoryManager.get_exposure. -/
structure ExposureReport where
  yes_contracts : ℤ
  no_contracts : ℤ
  yes_value : ℚ
  no_value : ℚ
  net_exposure : ℚ
  imbalance_pct : ℚ
deriving DecidableEq, Repr

/-- Embedding of InventoryManager.get_exposure, lines 117 to 133. -/
def Inventory.get_exposure (inv : Inventory) : ExposureReport :=
  let yes_value := (inv.yes_contracts : ℚ) * inv.avg_yes_price
  let no_value := (inv.no_contracts : ℚ) * inv.avg_no_price
  let net_exposure := yes_value - no_value
  let total_value := yes_value + no_value
  ⟨inv.yes_contracts, inv.no_contracts, yes_value, no_value,
    |net_exposure|, |net_exposure| / max total_value 1⟩

/-- Post trade exposure as estimated inside can_add_position: the traded
side is valued at the candidate price for old and new contracts alike,
the other side at its stored average price. -/
def Inventory.projected_exposure (inv : Inventory) (side : Side)
    (quantity price_cents : ℤ) : ℚ :=
  match side with
  | .yes =>
    |((inv.yes_contracts + quantity : ℤ) : ℚ) * (price_cents : ℚ) -
      (inv.no_contracts : ℚ) * inv.avg_no_price|
  | .no =>
    |(inv.yes_contracts : ℚ) * inv.avg_yes_price -
      ((inv.no_contracts + quantity : ℤ) : ℚ) * (price_cents : ℚ)|

/-- Embedding of InventoryManager.can_add_position, lines 135 to 152. -/
def Inventory.can_add_position (inv : Inventory) (side : Side)
    (quantity price_cents : ℤ) : Bool × InvReason :=
  let new_yes_value : ℚ :=
    match side with
    | .yes => ((inv.yes_contracts + quantity : ℤ) : ℚ) * (price_cents : ℚ)
    | .no => (inv.yes_contracts : ℚ) * inv.avg_yes_price
  let new_no_value : ℚ :=
    match side with
    | .yes => (inv.no_contracts : ℚ) * inv.avg_no_price
    | .no => ((inv.no_contracts + quantity : ℤ) : ℚ) * (price_cents : ℚ)
  if inv.max_exposure < |new_yes_value - new_no_value| then
    (false, InvReason.wouldExceedMaxExposure)
  else (true, InvReason.ok)

/-- Embedding of InventoryManager.add_position, lines 154 to 164.  The
weighted average price update divides by the new contract count; the
Python code would raise on a zero divisor, which never happens for the
positive quantities the bot passes, and rational division by zero is
never exercised by the theorems below. -/
def Inventory.add_position (inv : Inventory) (side : Side)
    (quantity price_cents : ℤ) : Inventory :=
  match side with
  | .yes =>
    let total_cost := (inv.yes_contracts : ℚ) * inv.avg_yes_price +
      (quantity : ℚ) * (price_cents : ℚ)
    { inv with yes_contracts := inv.yes_contracts + quantity,
               avg_yes_price := total_cost / ((inv.yes_contracts + quantity : ℤ) : ℚ) }
  | .no =>
    let total_cost := (inv.no_contracts : ℚ) * inv.avg_no_price +
      (quantity : ℚ) * (price_cents : ℚ)
    { inv with no_contracts := inv.no_contracts + quantity,
               avg_no_price := total_cost / ((inv.no_contracts + quantity : ℤ) : ℚ) }

/-- Python division on floats, modelled on rationals: none models the
ZeroDivisionError raised on a zero divisor. -/
def pydiv (a b : ℚ) : Option ℚ :=
  if b = 0 then none else some (a / b)

/-- Python int conversion of a float: truncation toward zero. -/
def pytrunc (q : ℚ) : ℤ :=
  if q < 0 then ⌈q⌉ else ⌊q⌋

/-- Embedding of calculate_position_size_kelly, trading_bot_CORRECTED.py
lines 168 to 203.  The float constants 0.5 and 0.05 are the exact
rationals they stand for; the result is none when the Python code would
raise ZeroDivisionError, which happens exactly when the guard on
avg_loss_cents passes and avg_win_cents is zero, or when the average of
win and loss is zero. -/
def calculate_position_size_kelly (account_balance_cents win_prob
    avg_win_cents avg_loss_cents : ℚ) : Option ℤ :=
  if avg_loss_cents ≤ 0 then some MIN_POSITION_CONTRACTS
  else
    let odds := avg_win_cents / avg_loss_cents
    match pydiv (odds * win_prob - (1 - win_prob)) odds with
    | none => none
    | some kf =>
      let kf1 := max 0 (kf * (1 / 2))
      let kf2 := min kf1 (1 / 20)
      let avg_price := (avg_win_cents + avg_loss_cents) / 2
      let risk_amount := account_balance_cents * kf2
      match pydiv risk_amount avg_price with
      | none => none
      | some raw =>
        some (min (max MIN_POSITION_CONTRACTS (pytrunc raw)) MAX_POSITION_CONTRACTS)

/-- Embedding of calculate_position_size_fixed_pct, lines 206 to 225.
The 50 cent assumed average contract price makes the division total. -/
def calculate_position_size_fixed_pct (account_balance_cents risk_pct : ℚ) : ℤ :=
  let avg_contract_price : ℚ := 50
  let risk_amount := account_balance_cents * risk_pct
  let raw := pytrunc (risk_amount / avg_contract_price)
  min (max MIN_POSITION_CONTRACTS raw) MAX_POSITION_CONTRACTS

/-- Embedding of TradingBot.determine_position_size, lines 358 to 372,
with the configured Kelly sizing.  The edge computation divides by the
opportunity buy price, so a zero buy price raises; the result is none
when any division in the sizing path raises. -/
def determine_position_size (account_balance_cents : ℚ)
    (opportunity : Opportunity) : Option ℤ :=
  if USE_KELLY_SIZING then
    match pydiv (opportunity.net_profit : ℚ) (opportunity.buy_price : ℚ) with
    | none => none
    | some edge =>
      let win_prob := 1 / 2 + edge / 2
      calculate_position_size_kelly account_balance_cents win_prob
        (opportunity.net_profit : ℚ) (opportunity.buy_price : ℚ)
  else
    some (calculate_position_size_fixed_pct account_balance_cents RISK_PER_TRADE_PCT)

/-! Embedding of the exchange client, src/kalshi-bot/kalshi_api.py. -/

def MAX_RETRIES : ℕ := 3

/-- Outcome of one attempt of the request loop, as decided by the
environment: the attempt can return a decoded body, fail with a network
class error (connection error or timeout), fail with an HTTP status
error, fail decoding the body, or fail with any other exception.  Bodies
and error causes are opaque numeric identifiers. -/
inductive AttemptOutcome
  | success (body : ℕ)
  | netError (cause : ℕ)
  | httpError (cause : ℕ)
  | decodeError (cause : ℕ)
  | otherError (cause : ℕ)
deriving DecidableEq, Repr

/-- Failure of a whole request, the raised KalshiAPIError: either an
HTTP status error surfaced immediately, a JSON decode error surfaced
immediately, or the retry budget ran out, carrying the last underlying
cause. -/
inductive RequestFailure
  | httpFail (cause : ℕ)
  | decodeFail (cause : ℕ)
  | retriesExhausted (last : Option ℕ)
deriving DecidableEq, Repr

/-- Body of the retry loop of KalshiClient._request, kalshi_api.py lines
170 to 233.  The fuel is the number of attempts left, the attempt index
counts from zero, and the accumulated result carries the list of sleep
durations in seconds.  A sleep of two to the power of the attempt index
happens after a retryable failure only when another attempt remains,
matching the guard on attempt against max_retries minus one. -/
def requestLoop (oc : ℕ → AttemptOutcome) :
    ℕ → ℕ → Option ℕ → Except RequestFailure ℕ × List ℕ
  | 0, _, lastError => (Except.error (RequestFailure.retriesExhausted lastError), [])
  | fuel + 1, attempt, _ =>
    match oc attempt with
    | .success body => (Except.ok body, [])
    | .httpError cause => (Except.error (RequestFailure.httpFail cause), [])
    | .decodeError cause => (Except.error (RequestFailure.decodeFail cause), [])
    | .netError cause =>
      let rest := requestLoop oc fuel (attempt + 1) (some cause)
      if 1 ≤ fuel then (rest.1, 2 ^ attempt :: rest.2) else rest
    | .otherError cause =>
      let rest := requestLoop oc fuel (attempt + 1) (some cause)
      if 1 ≤ fuel then (rest.1, 2 ^ attempt :: rest.2) else rest

/-- Embedding of KalshiClient._request: the retry loop started with the
full budget of MAX_RETRIES attempts.  Returns the request outcome and
the list of backoff sleeps performed. -/
def request (oc : ℕ → AttemptOutcome) : Except RequestFailure ℕ × List ℕ :=
  requestLoop oc MAX_RETRIES 0 none

/-! Embedding of KalshiClient.place_order, kalshi_api.py lines 386
to 421. -/

def sideYes : String := "yes"

def sideNo : String := "no"

def typeLimit : String := "limit"

def typeMarket : String := "market"

def mIdW : String := "KXEXAMPLE"

def errInvalidSide : String := "Invalid side"

def errInvalidPrice : String := "Invalid price"

def errInvalidCount : String := "Invalid count"

def errInvalidOrderType : String := "Invalid order type"

/-- Order payload sent to the exchange by place_order. -/
structure OrderRequest where
  market_id : String
  side : String
  price : ℤ
  count : ℤ
  order_type : String
deriving DecidableEq, Repr

/-- Embedding of KalshiClient.place_order input validation: each check
runs before any network call, in source order, and raises ValueError on
violation; when all pass, the order payload is posted.  The ok value is
the payload of the one HTTP request that gets sent. -/
def place_order (market_id side : String) (price count : ℤ)
    (order_type : String) : Except String OrderRequest :=
  if ¬(side = sideYes ∨ side = sideNo) then Except.error errInvalidSide
  else if ¬(1 ≤ price ∧ price ≤ 99) then Except.error errInvalidPrice
  else if count ≤ 0 then Except.error errInvalidCount
  else if ¬(order_type = typeLimit ∨ order_type = typeMarket) then
    Except.error errInvalidOrderType
  else Except.ok ⟨market_id, side, price, count, order_type⟩

/-- List of HTTP order requests a place_order call sends: one on
success, none when validation raised. -/
def requestsSent : Except String OrderRequest → List OrderRequest
  | .ok r => [r]
  | .error _ => []

/-! Embedding of TradingBot.place_market_making_orders,
trading_bot_CORRECTED.py lines 374 to 480. -/

/-- Decoded body of a place order response, as far as the bot inspects
it: the optional order identifier under the order_id key.  Identifiers
are modelled as natural numbers. -/
structure OrderResponse where
  order_id : Option ℕ
deriving DecidableEq, Repr

/-- Result of one client call as decided by the environment: a returned
value or a raised exception. -/
inductive CallResult (α : Type)
  | ok (a : α)
  | exn
deriving DecidableEq, Repr

/-- Oracle responses of the exchange for one pass of
place_market_making_orders: the balance lookup, the primary order
placement, the hedge order placement, and the cancellation of a given
order identifier. -/
structure ApiEnv where
  balance : CallResult ℤ
  primary : CallResult OrderResponse
  hedge : CallResult OrderResponse
  cancel : Option ℕ → CallResult Unit

/-- Trace event: one call the coordinator makes to the exchange client
or to the bookkeeping objects. -/
inductive Event
  | placeOrder (market_id : ℕ) (side : Side) (price count : ℤ)
  | cancelOrder (order_id : Option ℕ)
  | recordOrder
  | addPosition (side : Side) (quantity price : ℤ)
deriving DecidableEq, Repr

/-- True exactly on cancelOrder events. -/
def Event.isCancel : Event → Bool
  | .cancelOrder _ => true
  | _ => false

/-- True exactly on addPosition events. -/
def Event.isAddPos : Event → Bool
  | .addPosition _ _ _ => true
  | _ => false

/-- Result dictionary returned by place_market_making_orders on
success: the market identifier, the order identifiers of the collected
responses, the expected profit in cents and the position size. -/
structure PMResult where
  market_id : ℕ
  order_ids : List (Option ℕ)
  expected_profit : ℤ
  position_size : ℤ
deriving DecidableEq, Repr

/-- Complete outcome of one place_market_making_orders call: the
returned value, the trace of calls made, and the updated circuit
breaker and inventory states. -/
structure PMOutcome where
  result : Option PMResult
  events : List Event
  cb : CircuitBreaker
  inv : Inventory

/-- Embedding of TradingBot.place_market_making_orders.  The outer none
models an exception escaping the function, which can only come from the
position sizing divisions that run outside the try block; every handled
path returns some outcome.  The body follows the source: evaluate the
spread, fetch the balance (an exception there returns none after
logging), size the position, run the circuit breaker gate and the
inventory gate, then inside the try block place the primary order at
buy_price plus one, place the hedge order on the opposite side at 100
minus sell_price, and on any exception cancel every collected order,
swallowing cancellation failures, and return none.  On full success the
code records the order with the circuit breaker and returns the
expected profit; it never calls add_position on the inventory. -/
def place_market_making_orders (env : ApiEnv) (today : ℤ) (now : ℚ)
    (cb : CircuitBreaker) (inv : Inventory) (m : Market) : Option PMOutcome :=
  match calculate_spread m with
  | none => some ⟨none, [], cb, inv⟩
  | some opportunity =>
    match env.balance with
    | .exn => some ⟨none, [], cb, inv⟩
    | .ok account_balance_cents =>
      match determine_position_size (account_balance_cents : ℚ) opportunity with
      | none => none
      | some position_size =>
        let position_value := opportunity.buy_price * position_size
        let gate := cb.check_trade_allowed today now account_balance_cents position_value
        if gate.2.1 = false then some ⟨none, [], gate.1, inv⟩
        else if (inv.can_add_position opportunity.type position_size
            opportunity.buy_price).1 = false then
          some ⟨none, [], gate.1, inv⟩
        else
          let buy_price := opportunity.buy_price + 1
          let e1 := Event.placeOrder m.id opportunity.type buy_price position_size
          match env.primary with
          | .exn => some ⟨none, [e1], gate.1, inv⟩
          | .ok buy_order =>
            let hedge_side := opportunity.type.opposite
            let hedge_price := 100 - opportunity.sell_price
            let e2 := Event.placeOrder m.id hedge_side hedge_price position_size
            match env.hedge with
            | .exn =>
              let es := [e1, e2, Event.cancelOrder buy_order.order_id]
              match env.cancel buy_order.order_id with
              | .ok _ => some ⟨none, es, gate.1, inv⟩
              | .exn => some ⟨none, es, gate.1, inv⟩
            | .ok sell_order =>
              let cb2 := gate.1.record_order now
              let expected_profit := opportunity.net_profit * position_size
              some ⟨some ⟨m.id, [buy_order.order_id, sell_order.order_id],
                      expected_profit, position_size⟩,
                    [e1, e2, Event.recordOrder], cb2, inv⟩

/-- Events of an optional outcome, empty when the call raised. -/
def pmEvents : Option PMOutcome → List Event
  | none => []
  | some o => o.events

/-- Returned value of an optional outcome, none when the call raised. -/
def pmResult : Option PMOutcome → Option PMResult
  | none => none
  | some o => o.result

/-- C4: for every market whose yes bid is positive and yes ask nonzero
with yes_ask - yes_bid at least 2 times the fee plus the minimum profit,
calculate_spread returns the yes side opportunity with buy_price the yes
bid, sell_price the yes ask, fees twice the per contract fee, net_profit
exactly spread minus fees, and profit_pct equal to net_profit divided by
the yes bid times 100; the no side quotes are arbitrary, which shows the
yes side is evaluated first and returned. -/
theorem calculate_spread_yes_side (m : Market)
    (hb : 0 < m.yes_bid) (ha : m.yes_ask ≠ 0)
    (hs : KALSHI_FEE_PER_CONTRACT * 2 + MIN_PROFIT_CENTS ≤ m.yes_ask - m.yes_bid) :
    calculate_spread m =
      some ⟨Side.yes, m.yes_bid, m.yes_ask, m.yes_ask - m.yes_bid,
        KALSHI_FEE_PER_CONTRACT * 2,
        m.yes_ask - m.yes_bid - KALSHI_FEE_PER_CONTRACT * 2,
        ((m.yes_ask - m.yes_bid - KALSHI_FEE_PER_CONTRACT * 2 : ℤ) : ℚ) /
          (m.yes_bid : ℚ) * 100⟩ := by
  have hb' : m.yes_bid ≠ 0 := ne_of_gt hb
  simp only [calculate_spread]
  rw [if_pos ⟨hb', ha⟩, if_pos hs, if_pos hb]

/-- Witness for C4 at the concrete market of spec scenario 1, with a no
side that would also qualify, showing the yes side wins. -/
theorem calculate_spread_yes_side_witness :
    calculate_spread ⟨7, 40, 45, 30, 36⟩ =
      some ⟨Side.yes, 40, 45, 5, 4, 1, 5 / 2⟩ := by
  have h := calculate_spread_yes_side ⟨7, 40, 45, 30, 36⟩ (by norm_num)
    (by norm_num) (by norm_num [KALSHI_FEE_PER_CONTRACT, MIN_PROFIT_CENTS])
  norm_num [KALSHI_FEE_PER_CONTRACT] at h
  exact h

/-- C6: for every inventory state and candidate trade, can_add_position
rejects exactly when the projected post trade absolute difference of yes
and no notional values strictly exceeds max_exposure, and accepts when
the projected exposure equals max_exposure exactly. -/
theorem can_add_position_exposure_gate (inv : Inventory) (side : Side)
    (quantity price_cents : ℤ) :
    ((inv.can_add_position side quantity price_cents).1 = false ↔
      inv.max_exposure < inv.projected_exposure side quantity price_cents)
    ∧ (inv.projected_exposure side quantity price_cents = inv.max_exposure →
      (inv.can_add_position side quantity price_cents).1 = true) := by
  cases side <;>
    · simp only [Inventory.can_add_position, Inventory.projected_exposure]
      refine ⟨?_, ?_⟩
      · split_ifs with h
        · exact iff_of_true rfl h
        · exact iff_of_false (by simp) h
      · intro he
        rw [if_neg (by rw [he]; exact lt_irrefl _)]

/-- Witness for C6: the boundary trade whose projected exposure is
exactly the cap is accepted. -/
theorem can_add_position_exposure_gate_witness :
    (Inventory.can_add_position ⟨5000, 0, 0, 50, 50⟩ Side.yes 100 50).1 = true := by
  exact (can_add_position_exposure_gate ⟨5000, 0, 0, 50, 50⟩ Side.yes 100 50).2
    (by norm_num [Inventory.projected_exposure])

/-- C7: can_add_position values the traded side at the candidate price,
so with 100 existing yes contracts at average price 50 and cap 5000, the
projection of a 100 contract buy at 1 cent is only 200 and the trade is
accepted, yet after add_position performs the weighted average update
the reported net exposure is 5100, strictly above the cap. -/
theorem can_add_underestimates_exposure :
    (⟨5000, 100, 0, 50, 50⟩ : Inventory).yes_contracts ≠ 0
    ∧ Inventory.projected_exposure ⟨5000, 100, 0, 50, 50⟩ Side.yes 100 1 = 200
    ∧ (Inventory.can_add_position ⟨5000, 100, 0, 50, 50⟩ Side.yes 100 1).1 = true
    ∧ (⟨5000, 100, 0, 50, 50⟩ : Inventory).max_exposure <
        ((Inventory.add_position ⟨5000, 100, 0, 50, 50⟩ Side.yes 100 1).get_exposure).net_exposure := by
  refine ⟨by norm_num, ?_, ?_, ?_⟩ <;>
    norm_num [Inventory.projected_exposure, Inventory.can_add_position,
      Inventory.add_position, Inventory.get_exposure]

/-- Helper: a check on the current reset date with the daily loss
breached rejects with the daily loss reason and preserves the fields the
lockout depends on. -/
lemma check_same_date_daily_loss (cb : CircuitBreaker) (today : ℤ) (now : ℚ)
    (bal pv : ℤ) (ht : today = cb.last_reset_date)
    (hd : cb.daily_pnl < -cb.daily_loss_limit) :
    (cb.check_trade_allowed today now bal pv).2 =
      (false, CBReason.dailyLossLimitExceeded)
    ∧ (cb.check_trade_allowed today now bal pv).1.daily_pnl = cb.daily_pnl
    ∧ (cb.check_trade_allowed today now bal pv).1.daily_loss_limit = cb.daily_loss_limit
    ∧ (cb.check_trade_allowed today now bal pv).1.last_reset_date = cb.last_reset_date := by
  simp only [CircuitBreaker.check_trade_allowed, CircuitBreaker.reset_if_new_day,
    if_neg (not_not_intro ht)]
  by_cases hp : cb.peak_balance < bal <;>
    simp [hp, if_pos hd]

/-- Helper: while the daily loss stays breached and the date does not
roll over, every check in a sequence rejects with the daily loss
reason. -/
lemma runChecks_daily_loss (cb : CircuitBreaker)
    (hd : cb.daily_pnl < -cb.daily_loss_limit)
    (calls : List (ℤ × ℚ × ℤ × ℤ))
    (hdates : ∀ c ∈ calls, c.1 = cb.last_reset_date) :
    (cb.runChecks calls).1 =
      List.replicate calls.length (false, CBReason.dailyLossLimitExceeded) := by
  induction calls generalizing cb with
  | nil => simp [CircuitBreaker.runChecks]
  | cons c rest ih =>
    have hc : c.1 = cb.last_reset_date := hdates c (List.mem_cons_self _ _)
    have h := check_same_date_daily_loss cb c.1 c.2.1 c.2.2.1 c.2.2.2 hc hd
    simp only [CircuitBreaker.runChecks, List.length_cons, List.replicate_succ]
    refine congrArg₂ List.cons h.1 ?_
    exact ih _ (by rw [h.2.1, h.2.2.1]; exact hd)
      (fun d hdm => by rw [h.2.2.2]; exact hdates d (List.mem_cons_of_mem _ hdm))

/-- C5: once record_pnl drives daily_pnl strictly below the negated
daily loss limit, every subsequent check_trade_allowed call on the same
local date rejects with the daily loss reason, and the first check on a
new date resets daily_pnl to zero, clears the order timestamp window,
and no longer rejects for the daily loss. -/
theorem daily_loss_lockout (cb : CircuitBreaker)
    (h0 : 0 ≤ cb.daily_loss_limit) (p : ℤ)
    (hp : cb.daily_pnl + p < -cb.daily_loss_limit)
    (calls : List (ℤ × ℚ × ℤ × ℤ))
    (hdates : ∀ c ∈ calls, c.1 = cb.last_reset_date) :
    ((cb.record_pnl p).runChecks calls).1 =
      List.replicate calls.length (false, CBReason.dailyLossLimitExceeded)
    ∧ ∀ today now bal pv, today ≠ cb.last_reset_date →
        ((cb.record_pnl p).check_trade_allowed today now bal pv).1.daily_pnl = 0
        ∧ ((cb.record_pnl p).check_trade_allowed today now bal pv).1.order_timestamps = []
        ∧ ((cb.record_pnl p).check_trade_allowed today now bal pv).2.2 ≠
            CBReason.dailyLossLimitExceeded := by
  constructor
  · exact runChecks_daily_loss _ hp calls hdates
  · intro today now bal pv hnew
    simp only [CircuitBreaker.check_trade_allowed, CircuitBreaker.reset_if_new_day,
      CircuitBreaker.record_pnl, if_pos hnew]
    by_cases hpk : cb.peak_balance < bal <;>
      simp only [hpk, if_true, if_false] <;>
      split_ifs <;> simp_all <;> omega

/-- Witness for C5: a fresh breaker after recording a loss of one cent
beyond the limit rejects two same day checks with the daily loss reason,
and a check on the next date resets the counters. -/
theorem daily_loss_lockout_witness :
    (((CircuitBreaker.init 0).record_pnl (-5001)).runChecks
        [(0, 0, 10000, 40), (0, 30, 9000, 40)]).1 =
      List.replicate 2 (false, CBReason.dailyLossLimitExceeded)
    ∧ (((CircuitBreaker.init 0).record_pnl (-5001)).check_trade_allowed
        1 0 10000 40).1.daily_pnl = 0
    ∧ (((CircuitBreaker.init 0).record_pnl (-5001)).check_trade_allowed
        1 0 10000 40).1.order_timestamps = [] := by
  have h := daily_loss_lockout (CircuitBreaker.init 0)
    (by norm_num [CircuitBreaker.init, DAILY_LOSS_LIMIT_CENTS]) (-5001)
    (by norm_num [CircuitBreaker.init, DAILY_LOSS_LIMIT_CENTS])
    [(0, 0, 10000, 40), (0, 30, 9000, 40)]
    (by intro c hc
        simp only [List.mem_cons, List.not_mem_nil, or_false] at hc
        rcases hc with hc | hc <;> simp [hc, CircuitBreaker.init])
  have h2 := h.2 1 0 10000 40 (by norm_num [CircuitBreaker.init])
  exact ⟨h.1, h2.1, h2.2.1⟩

/-- C8 counterexample: for the pathological opportunities the claim
includes, the Kelly sizing path raises ZeroDivisionError instead of
returning a clamped count.  A zero net profit makes the odds zero and
the Kelly fraction then divides by them; a zero buy price makes the edge
computation divide by zero. -/
theorem determine_position_size_div_by_zero :
    determine_position_size 10000 ⟨Side.yes, 40, 44, 4, 4, 0, 0⟩ = none
    ∧ determine_position_size 10000 ⟨Side.yes, 0, 45, 45, 4, 41, 0⟩ = none := by
  constructor <;>
    norm_num [determine_position_size, USE_KELLY_SIZING, pydiv,
      calculate_position_size_kelly]

/-- Helper: shape of the Kelly sizing result for an opportunity with
positive buy price and positive net profit: every division succeeds and
the raw size is clamped. -/
lemma determine_eq_clamped (balance : ℚ) (o : Opportunity)
    (hbp : (0 : ℚ) < (o.buy_price : ℚ)) (hnp : (0 : ℚ) < (o.net_profit : ℚ)) :
    ∃ raw : ℚ, determine_position_size balance o =
      some (min (max MIN_POSITION_CONTRACTS (pytrunc raw)) MAX_POSITION_CONTRACTS) := by
  have hodds : (o.net_profit : ℚ) / (o.buy_price : ℚ) ≠ 0 :=
    div_ne_zero (ne_of_gt hnp) (ne_of_gt hbp)
  have havg : ((o.net_profit : ℚ) + (o.buy_price : ℚ)) / 2 ≠ 0 := by positivity
  refine ⟨balance * min (max 0 (((o.net_profit : ℚ) / (o.buy_price : ℚ) *
      (1 / 2 + (o.net_profit : ℚ) / (o.buy_price : ℚ) / 2) -
      (1 - (1 / 2 + (o.net_profit : ℚ) / (o.buy_price : ℚ) / 2))) /
      ((o.net_profit : ℚ) / (o.buy_price : ℚ)) * (1 / 2))) (1 / 20) /
      (((o.net_profit : ℚ) + (o.buy_price : ℚ)) / 2), ?_⟩
  simp only [determine_position_size, USE_KELLY_SIZING, if_true, pydiv,
    if_neg (ne_of_gt hbp), calculate_position_size_kelly,
    if_neg (not_le.mpr hbp), if_neg hodds, if_neg havg]

/-- C8 amended: for every account balance and every opportunity with
strictly positive buy price and net profit, which calculate_spread
guarantees for the opportunities it produces, the Kelly path returns a
count clamped into the configured interval without raising, and the
fixed percentage strategy does so for every balance unconditionally. -/
theorem position_size_bounds (balance : ℚ) (opportunity : Opportunity)
    (hbp : 0 < opportunity.buy_price) (hnp : 0 < opportunity.net_profit) :
    determine_position_size balance opportunity ≠ none
    ∧ (∀ n, determine_position_size balance opportunity = some n →
        MIN_POSITION_CONTRACTS ≤ n ∧ n ≤ MAX_POSITION_CONTRACTS)
    ∧ MIN_POSITION_CONTRACTS ≤
        calculate_position_size_fixed_pct balance RISK_PER_TRADE_PCT
    ∧ calculate_position_size_fixed_pct balance RISK_PER_TRADE_PCT ≤
        MAX_POSITION_CONTRACTS := by
  have hbpQ : (0 : ℚ) < (opportunity.buy_price : ℚ) := by exact_mod_cast hbp
  have hnpQ : (0 : ℚ) < (opportunity.net_profit : ℚ) := by exact_mod_cast hnp
  obtain ⟨raw, hraw⟩ := determine_eq_clamped balance opportunity hbpQ hnpQ
  refine ⟨by rw [hraw]; simp, ?_, ?_, ?_⟩
  · intro n hn
    rw [hraw] at hn
    have : n = min (max MIN_POSITION_CONTRACTS (pytrunc raw)) MAX_POSITION_CONTRACTS :=
      (Option.some.injEq _ _ ▸ hn).symm
    constructor
    · rw [this]
      exact le_min (le_max_left _ _)
        (by norm_num [MIN_POSITION_CONTRACTS, MAX_POSITION_CONTRACTS])
    · rw [this]; exact min_le_right _ _
  · exact le_min (le_max_left _ _)
      (by norm_num [MIN_POSITION_CONTRACTS, MAX_POSITION_CONTRACTS])
  · exact min_le_right _ _

/-- Witness for C8 amended, at the opportunity of spec scenario 1 and a
balance of 10000 cents. -/
theorem position_size_bounds_witness :
    determine_position_size 10000 ⟨Side.yes, 40, 45, 5, 4, 1, 5 / 2⟩ ≠ none := by
  exact (position_size_bounds 10000 ⟨Side.yes, 40, 45, 5, 4, 1, 5 / 2⟩
    (by norm_num) (by norm_num)).1

/-- C9 counterexample: when all three attempts fail with network class
errors, the request performs backoff sleeps of exactly 1 and 2 seconds;
no 4 second sleep ever happens, because no sleep follows the final
attempt.  The claim of delays of 1, 2 and 4 seconds between attempts is
therefore false on the code. -/
theorem request_backoff_no_third_sleep :
    request (fun n => AttemptOutcome.netError n) =
      (Except.error (RequestFailure.retriesExhausted (some 2)), [1, 2])
    ∧ ¬(4 ∈ (request (fun n => AttemptOutcome.netError n)).2) := by
  have h : request (fun n => AttemptOutcome.netError n) =
      (Except.error (RequestFailure.retriesExhausted (some 2)), [1, 2]) := rfl
  exact ⟨h, by rw [h]; decide⟩

/-- C9 amended: three consecutive network class failures exhaust the
retry budget of three attempts, with backoff sleeps of 1 second and then
2 seconds between consecutive attempts, and the third failure surfaces
as the fatal error carrying the last underlying cause. -/
theorem request_retries_network_failures (oc : ℕ → AttemptOutcome)
    (c0 c1 c2 : ℕ) (h0 : oc 0 = AttemptOutcome.netError c0)
    (h1 : oc 1 = AttemptOutcome.netError c1)
    (h2 : oc 2 = AttemptOutcome.netError c2) :
    request oc =
      (Except.error (RequestFailure.retriesExhausted (some c2)), [1, 2]) := by
  simp only [request, MAX_RETRIES, requestLoop, h0, h1, h2]
  norm_num

/-- Witness for C9 amended at a concrete failure oracle. -/
theorem request_retries_network_failures_witness :
    request (fun n => AttemptOutcome.netError (n + 5)) =
      (Except.error (RequestFailure.retriesExhausted (some 7)), [1, 2]) := by
  exact request_retries_network_failures (fun n => AttemptOutcome.netError (n + 5))
    5 6 7 rfl rfl rfl

/-- C10: place_order validates the side, the price range, the count and
the order type before any network call; a violation of any of the four
raises a validation error and sends no HTTP request, and when all four
hold the one order request with exactly the given payload is sent. -/
theorem place_order_validates (market_id side : String) (price count : ℤ)
    (order_type : String) :
    ((side = sideYes ∨ side = sideNo) → 1 ≤ price → price ≤ 99 → 0 < count →
      (order_type = typeLimit ∨ order_type = typeMarket) →
      place_order market_id side price count order_type =
        Except.ok ⟨market_id, side, price, count, order_type⟩)
    ∧ (¬((side = sideYes ∨ side = sideNo) ∧ (1 ≤ price ∧ price ≤ 99) ∧
          0 < count ∧ (order_type = typeLimit ∨ order_type = typeMarket)) →
      requestsSent (place_order market_id side price count order_type) = []
      ∧ ∀ r, place_order market_id side price count order_type ≠ Except.ok r) := by
  constructor
  · intro hside hp1 hp2 hc hty
    rw [place_order, if_neg (not_not_intro hside), if_neg (not_not_intro ⟨hp1, hp2⟩),
      if_neg (not_le.mpr hc), if_neg (not_not_intro hty)]
  · intro hbad
    rw [place_order]
    split_ifs with g1 g2 g3 g4
    all_goals first
      | exact ⟨rfl, fun r h => Except.noConfusion h⟩
      | exact absurd ⟨by tauto, by tauto, by omega, by tauto⟩ hbad

/-- Witness for C10: a valid order is sent with its exact payload, and
an order with price zero is rejected with no request sent. -/
theorem place_order_validates_witness :
    place_order mIdW sideYes 50 10 typeLimit =
      Except.ok ⟨mIdW, sideYes, 50, 10, typeLimit⟩
    ∧ requestsSent (place_order mIdW sideYes 0 10 typeLimit) = [] := by
  constructor
  · exact (place_order_validates mIdW sideYes 50 10 typeLimit).1
      (Or.inl rfl) (by norm_num) (by norm_num) (by norm_num) (Or.inl rfl)
  · exact ((place_order_validates mIdW sideYes 0 10 typeLimit).2
      (by intro h; exact absurd h.2.1.1 (by norm_num))).1

/-- C1: on full success of both order legs, place_market_making_orders
records the order with the circuit breaker and returns a result whose
expected profit is net_profit times position_size, but the inventory
state is returned unchanged and the trace holds no addPosition event:
the code never calls InventoryManager.add_position, although its own
comment announces recording with circuit breaker and inventory. -/
theorem full_success_skips_add_position (env : ApiEnv) (today : ℤ) (now : ℚ)
    (cb : CircuitBreaker) (inv : Inventory) (m : Market)
    (opportunity : Opportunity) (bal ps : ℤ) (r1 r2 : OrderResponse)
    (hopp : calculate_spread m = some opportunity)
    (hbal : env.balance = CallResult.ok bal)
    (hps : determine_position_size (bal : ℚ) opportunity = some ps)
    (hcb : (cb.check_trade_allowed today now bal
        (opportunity.buy_price * ps)).2.1 = true)
    (hinv : (inv.can_add_position opportunity.type ps opportunity.buy_price).1 = true)
    (hpr : env.primary = CallResult.ok r1)
    (hhe : env.hedge = CallResult.ok r2) :
    place_market_making_orders env today now cb inv m =
      some ⟨some ⟨m.id, [r1.order_id, r2.order_id],
          opportunity.net_profit * ps, ps⟩,
        [Event.placeOrder m.id opportunity.type (opportunity.buy_price + 1) ps,
          Event.placeOrder m.id opportunity.type.opposite
            (100 - opportunity.sell_price) ps,
          Event.recordOrder],
        ((cb.check_trade_allowed today now bal
            (opportunity.buy_price * ps)).1).record_order now,
        inv⟩ := by
  simp [place_market_making_orders, hopp, hbal, hps, hcb, hinv, hpr, hhe]

/-- C2: whenever the hedge placement raises after the primary order was
placed, the coordinator cancels exactly the primary order, exactly once,
and returns no result; the outcome is the same whatever the cancellation
call returns, so a cancellation failure does not mask the hedge
failure, and the inventory is untouched. -/
theorem hedge_failure_cancels_primary_once (env : ApiEnv) (today : ℤ)
    (now : ℚ) (cb : CircuitBreaker) (inv : Inventory) (m : Market)
    (opportunity : Opportunity) (bal ps : ℤ) (r1 : OrderResponse)
    (hopp : calculate_spread m = some opportunity)
    (hbal : env.balance = CallResult.ok bal)
    (hps : determine_position_size (bal : ℚ) opportunity = some ps)
    (hcb : (cb.check_trade_allowed today now bal
        (opportunity.buy_price * ps)).2.1 = true)
    (hinv : (inv.can_add_position opportunity.type ps opportunity.buy_price).1 = true)
    (hpr : env.primary = CallResult.ok r1)
    (hhe : env.hedge = CallResult.exn) :
    place_market_making_orders env today now cb inv m =
      some ⟨none,
        [Event.placeOrder m.id opportunity.type (opportunity.buy_price + 1) ps,
          Event.placeOrder m.id opportunity.type.opposite
            (100 - opportunity.sell_price) ps,
          Event.cancelOrder r1.order_id],
        (cb.check_trade_allowed today now bal (opportunity.buy_price * ps)).1,
        inv⟩
    ∧ List.filter Event.isCancel
        [Event.placeOrder m.id opportunity.type (opportunity.buy_price + 1) ps,
          Event.placeOrder m.id opportunity.type.opposite
            (100 - opportunity.sell_price) ps,
          Event.cancelOrder r1.order_id] =
        [Event.cancelOrder r1.order_id] := by
  constructor
  · simp only [place_market_making_orders, hopp, hbal, hps, hcb, hinv, hpr, hhe]
    cases env.cancel r1.order_id <;> simp
  · simp [Event.isCancel]

/-- Witness for C1 at a concrete successful cycle: spec scenario 1
market, fresh breaker and inventory, both orders accepted. -/
theorem full_success_skips_add_position_witness :
    place_market_making_orders
        ⟨CallResult.ok 10000, CallResult.ok ⟨some 8⟩, CallResult.ok ⟨some 9⟩,
          fun _ => CallResult.ok ()⟩ 0 0 (CircuitBreaker.init 0) Inventory.init
        ⟨7, 40, 45, 0, 0⟩ =
      some ⟨some ⟨7, [some 8, some 9], 1, 1⟩,
        [Event.placeOrder 7 Side.yes 41 1, Event.placeOrder 7 Side.no 55 1,
          Event.recordOrder],
        ⟨5000, 1 / 10, 10000, 10, 0, 10000, 0, [0], 0⟩, Inventory.init⟩ := by
  have hcb : (CircuitBreaker.init 0).check_trade_allowed 0 0 10000 40 =
      (⟨5000, 1 / 10, 10000, 10, 0, 10000, 0, [], 0⟩, true, CBReason.ok) := by
    norm_num [CircuitBreaker.check_trade_allowed, CircuitBreaker.reset_if_new_day,
      CircuitBreaker.init, DAILY_LOSS_LIMIT_CENTS, MAX_DRAWDOWN_PCT,
      MAX_POSITION_VALUE_CENTS, ORDERS_PER_MINUTE]
  have h := full_success_skips_add_position
    ⟨CallResult.ok 10000, CallResult.ok ⟨some 8⟩, CallResult.ok ⟨some 9⟩,
      fun _ => CallResult.ok ()⟩ 0 0 (CircuitBreaker.init 0) Inventory.init
    ⟨7, 40, 45, 0, 0⟩ ⟨Side.yes, 40, 45, 5, 4, 1, 5 / 2⟩ 10000 1
    ⟨some 8⟩ ⟨some 9⟩
    (by norm_num [calculate_spread, KALSHI_FEE_PER_CONTRACT, MIN_PROFIT_CENTS])
    rfl
    (by norm_num [determine_position_size, USE_KELLY_SIZING, pydiv, pytrunc,
      calculate_position_size_kelly, MIN_POSITION_CONTRACTS,
      MAX_POSITION_CONTRACTS, max_def, min_def])
    (by norm_num [hcb])
    (by norm_num [Inventory.can_add_position, Inventory.init, MAX_EXPOSURE_CENTS])
    rfl rfl
  rw [h]
  norm_num [hcb, CircuitBreaker.record_order, Side.opposite]

/-- Witness for C2 at a concrete cycle where the hedge placement raises
and the cancellation of the primary also raises: the primary order is
still cancelled exactly once and no result is returned. -/
theorem hedge_failure_cancels_primary_once_witness :
    place_market_making_orders
        ⟨CallResult.ok 10000, CallResult.ok ⟨some 8⟩, CallResult.exn,
          fun _ => CallResult.exn⟩ 0 0 (CircuitBreaker.init 0) Inventory.init
        ⟨7, 40, 45, 0, 0⟩ =
      some ⟨none,
        [Event.placeOrder 7 Side.yes 41 1, Event.placeOrder 7 Side.no 55 1,
          Event.cancelOrder (some 8)],
        ⟨5000, 1 / 10, 10000, 10, 0, 10000, 0, [], 0⟩, Inventory.init⟩ := by
  have hcb : (CircuitBreaker.init 0).check_trade_allowed 0 0 10000 40 =
      (⟨5000, 1 / 10, 10000, 10, 0, 10000, 0, [], 0⟩, true, CBReason.ok) := by
    norm_num [CircuitBreaker.check_trade_allowed, CircuitBreaker.reset_if_new_day,
      CircuitBreaker.init, DAILY_LOSS_LIMIT_CENTS, MAX_DRAWDOWN_PCT,
      MAX_POSITION_VALUE_CENTS, ORDERS_PER_MINUTE]
  have h := hedge_failure_cancels_primary_once
    ⟨CallResult.ok 10000, CallResult.ok ⟨some 8⟩, CallResult.exn,
      fun _ => CallResult.exn⟩ 0 0 (CircuitBreaker.init 0) Inventory.init
    ⟨7, 40, 45, 0, 0⟩ ⟨Side.yes, 40, 45, 5, 4, 1, 5 / 2⟩ 10000 1 ⟨some 8⟩
    (by norm_num [calculate_spread, KALSHI_FEE_PER_CONTRACT, MIN_PROFIT_CENTS])
    rfl
    (by norm_num [determine_position_size, USE_KELLY_SIZING, pydiv, pytrunc,
      calculate_position_size_kelly, MIN_POSITION_CONTRACTS,
      MAX_POSITION_CONTRACTS, max_def, min_def])
    (by norm_num [hcb])
    (by norm_num [Inventory.can_add_position, Inventory.init, MAX_EXPOSURE_CENTS])
    rfl rfl
  rw [h.1]
  norm_num [hcb, Side.opposite]

/-- C3: the corrected coordinator places the primary order at the bid
plus one cent, but never inspects the primary response for an order
identifier: on a primary response with no order_id it still places the
hedge order and even returns a success result, instead of aborting
before the hedge as the claim requires.  The original trading_bot.py
aborts in that case; trading_bot_CORRECTED.py dropped the check. -/
theorem missing_primary_id_still_places_hedge :
    pmEvents (place_market_making_orders
        ⟨CallResult.ok 10000, CallResult.ok ⟨none⟩, CallResult.ok ⟨some 9⟩,
          fun _ => CallResult.ok ()⟩ 0 0 (CircuitBreaker.init 0) Inventory.init
        ⟨7, 40, 45, 0, 0⟩) =
      [Event.placeOrder 7 Side.yes 41 1, Event.placeOrder 7 Side.no 55 1,
        Event.recordOrder]
    ∧ pmResult (place_market_making_orders
        ⟨CallResult.ok 10000, CallResult.ok ⟨none⟩, CallResult.ok ⟨some 9⟩,
          fun _ => CallResult.ok ()⟩ 0 0 (CircuitBreaker.init 0) Inventory.init
        ⟨7, 40, 45, 0, 0⟩) =
      some ⟨7, [none, some 9], 1, 1⟩ := by
  have hopp : calculate_spread ⟨7, 40, 45, 0, 0⟩ =
      some ⟨Side.yes, 40, 45, 5, 4, 1, 5 / 2⟩ := by
    norm_num [calculate_spread, KALSHI_FEE_PER_CONTRACT, MIN_PROFIT_CENTS]
  have hps : determine_position_size (10000 : ℚ)
      ⟨Side.yes, 40, 45, 5, 4, 1, 5 / 2⟩ = some 1 := by
    norm_num [determine_position_size, USE_KELLY_SIZING, pydiv, pytrunc,
      calculate_position_size_kelly, MIN_POSITION_CONTRACTS,
      MAX_POSITION_CONTRACTS, max_def, min_def]
  have hcb : (CircuitBreaker.init 0).check_trade_allowed 0 0 10000 40 =
      (⟨5000, 1 / 10, 10000, 10, 0, 10000, 0, [], 0⟩, true, CBReason.ok) := by
    norm_num [CircuitBreaker.check_trade_allowed, CircuitBreaker.reset_if_new_day,
      CircuitBreaker.init, DAILY_LOSS_LIMIT_CENTS, MAX_DRAWDOWN_PCT,
      MAX_POSITION_VALUE_CENTS, ORDERS_PER_MINUTE]
  have hinv : (Inventory.init.can_add_position Side.yes 1 40).1 = true := by
    norm_num [Inventory.can_add_position, Inventory.init, MAX_EXPOSURE_CENTS]
  constructor <;>
    simp [place_market_making_orders, hopp, hps, hcb, hinv, pmEvents, pmResult,
      Side.opposite, CircuitBreaker.record_order]

end KalshiBot
